import Mathlib

/-!
Verification development for the ZIP → Providers backend (`src/app.py`).

The Python program loads flat reference tables into three in-memory
mappings (`id_to_name`, `zip_to_providers`, `zip_to_counties`) and serves
point lookups.  We embed the data-reconciliation builders, the loader
orchestration and the lookup pipeline as executable Lean functions and
prove the specification's claims about them.

Modelling conventions:
* a pandas DataFrame read with `dtype=str` and passed through
  `_normalize_cols` is a `Table`: a list of normalized column names plus
  rows, each row being a function from column name to `Option String`
  (`none` models a NaN cell);
* Python dicts are association lists; insertion conses the new pair in
  front, so a lookup that takes the first hit realizes last-write-wins;
* Python string helpers (`zfill`, `strip`, `split`, `isdigit`,
  `endswith`, `in`) are re-implemented over `List Char`;
* `pd.to_numeric(errors="coerce")` followed by `astype("Int64")` is
  modelled as optional-sign decimal integer parsing (`pdInt?`);
* Python's `sorted(set(...))` is `sortedDedupBy` with an explicit
  boolean strict order (`intLtB` on ints, code-point lexicographic
  `strLtB` on strings, exactly Python's string order).
-/

namespace CellCoverage

/-- Python whitespace characters recognized by `str.strip()` (ASCII part). -/
def isPySpace (c : Char) : Bool :=
  c = ' ' || c = '\t' || c = '\n' || c = '\r' || c = '\x0b' || c = '\x0c'

/-- `str.strip()` over a character list. -/
def trimChars (l : List Char) : List Char :=
  ((l.dropWhile isPySpace).reverse.dropWhile isPySpace).reverse

/-- `str.strip()` on strings. -/
def pyStrip (s : String) : String := ⟨trimChars s.data⟩

/-- Numeric value of a digit list (used only under an all-digit guard). -/
def digitsToNat (l : List Char) : Nat :=
  l.foldl (fun a c => a * 10 + (c.toNat - 48)) 0

/-- Parse a non-empty all-digit character list, as Python `int` does on
digit strings; `none` otherwise. -/
def parseDigits? (l : List Char) : Option Nat :=
  if l ≠ [] ∧ l.all Char.isDigit then some (digitsToNat l) else none

/-- Python `int(s)` on a string: strip whitespace, optional sign, decimal
digits; `none` when the literal is invalid. -/
def pyIntParse? (s : String) : Option Int :=
  match trimChars s.data with
  | [] => none
  | c :: rest =>
    if c = '+' then (parseDigits? rest).map Int.ofNat
    else if c = '-' then (parseDigits? rest).map (fun n => -(n : Int))
    else (parseDigits? (c :: rest)).map Int.ofNat

/-- Python's per-character `str.isdigit()` test.  Beyond the ASCII
digits it accepts further Unicode digit characters; this model is exact
for all code points below U+0100 (whose only non-ASCII digits are the
superscripts `¹ ² ³`, which `int()` nevertheless rejects) and treats
higher code points as non-digits.  A value containing such a higher
digit is therefore dropped by the lookup filter here, where CPython may
raise instead — so no totality statement in this file covers states
holding characters above U+00FF, and none is made. -/
def pyDigitChar (c : Char) : Bool :=
  c.isDigit || c = '¹' || c = '²' || c = '³'

/-- Python `str.isdigit()`: non-empty and all digit characters. -/
def pyIsDigitStr (s : String) : Bool :=
  s.data ≠ [] && s.data.all pyDigitChar

/-- Python `s.split(sep)` for a one-character separator. -/
def splitChar (c : Char) : List Char → List (List Char)
  | [] => [[]]
  | x :: xs =>
    if x = c then [] :: splitChar c xs
    else
      match splitChar c xs with
      | h :: t => (x :: h) :: t
      | [] => [[x]]

/-- `[s.strip() for s in v.split(sep) if s.strip()]`. -/
def splitTrimFilter (sep : Char) (v : String) : List String :=
  ((splitChar sep v.data).map (fun l => pyStrip ⟨l⟩)).filter (fun s => s ≠ "")

/-- Python `s.zfill(w)` over a character list: pad with `'0'` on the left
to width `w`, keeping a leading sign in place; never truncates. -/
def pyZfillList (w : Nat) (l : List Char) : List Char :=
  if w ≤ l.length then l
  else
    match l with
    | c :: rest =>
      if c = '+' ∨ c = '-' then c :: (List.replicate (w - l.length) '0' ++ rest)
      else List.replicate (w - l.length) '0' ++ (c :: rest)
    | [] => List.replicate w '0'

/-- Python `s.zfill(w)` on strings. -/
def pyZfill (w : Nat) (s : String) : String := ⟨pyZfillList w s.data⟩

/-- Python `s.endswith(pat)`. -/
def endsWithS (s pat : String) : Bool := pat.data.isSuffixOf s.data

/-- `_normalize_cols` cleaning of one header: keep printable ASCII,
strip, lowercase, spaces to underscores (`src/app.py` lines 20–28). -/
def cleanCol (s : String) : String :=
  ⟨((trimChars (s.data.filter (fun c => 32 ≤ c.toNat && c.toNat ≤ 126))).map
      Char.toLower).map (fun c => if c = ' ' then '_' else c)⟩

/-- A boolean relation that is a strict linear order: asymmetric,
transitive, and with simultaneous failure implying equality. -/
structure IsLinOrderB {α : Type} (ltB : α → α → Bool) : Prop where
  asymm : ∀ a b, ltB a b = true → ltB b a = false
  trans : ∀ a b c, ltB a b = true → ltB b c = true → ltB a c = true
  eq_of : ∀ a b, ltB a b = false → ltB b a = false → a = b

/-- Insertion into a strictly ascending duplicate-free list, keeping it
strictly ascending and duplicate-free (equal elements are dropped). -/
def insertSortedBy {α : Type} (ltB : α → α → Bool) (x : α) : List α → List α
  | [] => [x]
  | y :: ys =>
    if ltB x y then x :: y :: ys
    else if ltB y x then y :: insertSortedBy ltB x ys
    else y :: ys

/-- Python `sorted(set(l))`: strictly ascending enumeration of the
distinct elements of `l` with respect to `ltB`. -/
def sortedDedupBy {α : Type} (ltB : α → α → Bool) (l : List α) : List α :=
  l.foldr (insertSortedBy ltB) []

/-- Strict order on Python ints. -/
def intLtB (a b : Int) : Bool := decide (a < b)

/-- Code-point lexicographic strict order on character lists (Python's
string comparison). -/
def charListLtB : List Char → List Char → Bool
  | _, [] => false
  | [], _ :: _ => true
  | a :: as, b :: bs =>
    if a < b then true
    else if b < a then false
    else charListLtB as bs

/-- Python's `<` on strings: code-point lexicographic. -/
def strLtB (a b : String) : Bool := charListLtB a.data b.data

/-- `sorted(set(...))` on int lists. -/
def sortedDedupInt (l : List Int) : List Int := sortedDedupBy intLtB l

/-- `sorted(set(...))` on string lists. -/
def sortedDedupStr (l : List String) : List String := sortedDedupBy strLtB l

/-- Association-list lookup: first hit wins (so front insertion models
Python dict overwriting). -/
def dfind? {κ β : Type} [DecidableEq κ] : List (κ × β) → κ → Option β
  | [], _ => none
  | (k, v) :: m, key => if k = key then some v else dfind? m key

section SortedDedupFacts

variable {α : Type} {ltB : α → α → Bool}

theorem insertSortedBy_cons (x y : α) (ys : List α) :
    insertSortedBy ltB x (y :: ys) =
      if ltB x y then x :: y :: ys
      else if ltB y x then y :: insertSortedBy ltB x ys
      else y :: ys := rfl

theorem insertSortedBy_mem (h : IsLinOrderB ltB) (x a : α) (l : List α) :
    a ∈ insertSortedBy ltB x l ↔ a = x ∨ a ∈ l := by
  induction l with
  | nil => simp [insertSortedBy]
  | cons y ys ih =>
    rw [insertSortedBy_cons]
    by_cases h1 : ltB x y = true
    · rw [if_pos h1]
      simp [List.mem_cons]
    · rw [if_neg h1]
      by_cases h2 : ltB y x = true
      · rw [if_pos h2]
        simp only [List.mem_cons, ih]
        tauto
      · rw [if_neg h2]
        have hxy : x = y :=
          h.eq_of x y (Bool.not_eq_true _ ▸ h1) (Bool.not_eq_true _ ▸ h2)
        subst hxy
        simp only [List.mem_cons]
        tauto

theorem insertSortedBy_sorted (h : IsLinOrderB ltB) (x : α) (l : List α)
    (hs : l.Sorted (fun a b => ltB a b = true)) :
    (insertSortedBy ltB x l).Sorted (fun a b => ltB a b = true) := by
  induction l with
  | nil => simp [insertSortedBy]
  | cons y ys ih =>
    rw [List.sorted_cons] at hs
    obtain ⟨hy, hys⟩ := hs
    rw [insertSortedBy_cons]
    by_cases h1 : ltB x y = true
    · rw [if_pos h1, List.sorted_cons]
      refine ⟨?_, ?_⟩
      · intro b hb
        rcases List.mem_cons.mp hb with hb | hb
        · exact hb ▸ h1
        · exact h.trans x y b h1 (hy b hb)
      · rw [List.sorted_cons]; exact ⟨hy, hys⟩
    · rw [if_neg h1]
      by_cases h2 : ltB y x = true
      · rw [if_pos h2, List.sorted_cons]
        refine ⟨?_, ih hys⟩
        intro b hb
        rcases (insertSortedBy_mem h x b ys).mp hb with hb | hb
        · exact hb ▸ h2
        · exact hy b hb
      · rw [if_neg h2, List.sorted_cons]
        exact ⟨hy, hys⟩

theorem sortedDedupBy_sorted (h : IsLinOrderB ltB) (l : List α) :
    (sortedDedupBy ltB l).Sorted (fun a b => ltB a b = true) := by
  induction l with
  | nil => simp [sortedDedupBy]
  | cons x xs ih => exact insertSortedBy_sorted h x _ ih

theorem sortedDedupBy_nodup (h : IsLinOrderB ltB) (l : List α) :
    (sortedDedupBy ltB l).Nodup := by
  refine (sortedDedupBy_sorted h l).imp ?_
  intro a b hab hEq
  subst hEq
  exact absurd hab (by simpa using h.asymm a a hab)

theorem sortedDedupBy_mem (h : IsLinOrderB ltB) (a : α) (l : List α) :
    a ∈ sortedDedupBy ltB l ↔ a ∈ l := by
  induction l with
  | nil => simp [sortedDedupBy]
  | cons x xs ih =>
    show a ∈ insertSortedBy ltB x (sortedDedupBy ltB xs) ↔ _
    rw [insertSortedBy_mem h, ih]
    simp [List.mem_cons]

theorem insertSortedBy_of_head (x : α) (l : List α)
    (hl : ∀ b ∈ l, ltB x b = true) : insertSortedBy ltB x l = x :: l := by
  cases l with
  | nil => rfl
  | cons y ys =>
    rw [insertSortedBy_cons, if_pos (hl y (List.mem_cons_self y ys))]

theorem sortedDedupBy_eq_self (l : List α)
    (hs : l.Sorted (fun a b => ltB a b = true)) : sortedDedupBy ltB l = l := by
  induction l with
  | nil => rfl
  | cons x xs ih =>
    rw [List.sorted_cons] at hs
    obtain ⟨hx, hxs⟩ := hs
    show insertSortedBy ltB x (sortedDedupBy ltB xs) = x :: xs
    rw [ih hxs]
    exact insertSortedBy_of_head x xs hx

theorem sortedDedupBy_idem (h : IsLinOrderB ltB) (l : List α) :
    sortedDedupBy ltB (sortedDedupBy ltB l) = sortedDedupBy ltB l :=
  sortedDedupBy_eq_self _ (sortedDedupBy_sorted h l)

end SortedDedupFacts

theorem intLtB_lawful : IsLinOrderB intLtB := by
  constructor
  · intro a b hab
    simp only [intLtB, decide_eq_true_eq] at hab
    simp only [intLtB, decide_eq_false_iff_not]
    omega
  · intro a b c hab hbc
    simp only [intLtB, decide_eq_true_eq] at *
    omega
  · intro a b hab hba
    simp only [intLtB, decide_eq_false_iff_not] at *
    omega

theorem charListLtB_asymm :
    ∀ a b : List Char, charListLtB a b = true → charListLtB b a = false := by
  intro a
  induction a with
  | nil =>
    intro b hb
    cases b with
    | nil => simp [charListLtB] at hb
    | cons x xs => simp [charListLtB]
  | cons x xs ih =>
    intro b hb
    cases b with
    | nil => simp [charListLtB] at hb
    | cons y ys =>
      by_cases h1 : x < y
      · have h2 : ¬ y < x := lt_asymm h1
        simp [charListLtB, h1, h2]
      · by_cases h2 : y < x
        · simp [charListLtB, h1, h2] at hb
        · simp only [charListLtB, h1, if_false, h2, if_false] at hb ⊢
          exact ih ys hb

theorem charListLtB_trans :
    ∀ a b c : List Char, charListLtB a b = true → charListLtB b c = true →
      charListLtB a c = true := by
  intro a
  induction a with
  | nil =>
    intro b c hab hbc
    cases c with
    | nil =>
      cases b with
      | nil => simp [charListLtB] at hab
      | cons y ys => simp [charListLtB] at hbc
    | cons z zs => simp [charListLtB]
  | cons x xs ih =>
    intro b c hab hbc
    cases b with
    | nil => simp [charListLtB] at hab
    | cons y ys =>
      cases c with
      | nil => simp [charListLtB] at hbc
      | cons z zs =>
        by_cases hxy : x < y
        · by_cases hyz : y < z
          · have hxz : x < z := lt_trans hxy hyz
            simp [charListLtB, hxz]
          · by_cases hzy : z < y
            · simp [charListLtB, hyz, hzy] at hbc
            · have hyz2 : y = z := le_antisymm (le_of_not_lt hzy) (le_of_not_lt hyz)
              subst hyz2
              simp [charListLtB, hxy]
        · by_cases hyx : y < x
          · simp [charListLtB, hxy, hyx] at hab
          · have hxy2 : x = y := le_antisymm (le_of_not_lt hyx) (le_of_not_lt hxy)
            subst hxy2
            simp only [charListLtB, lt_irrefl, if_false] at hab
            by_cases hyz : x < z
            · simp [charListLtB, hyz]
            · by_cases hzy : z < x
              · simp [charListLtB, hyz, hzy] at hbc
              · simp only [charListLtB, hyz, if_false, hzy, if_false] at hbc ⊢
                exact ih ys zs hab hbc

theorem charListLtB_eq_of :
    ∀ a b : List Char, charListLtB a b = false → charListLtB b a = false →
      a = b := by
  intro a
  induction a with
  | nil =>
    intro b hab _
    cases b with
    | nil => rfl
    | cons y ys => simp [charListLtB] at hab
  | cons x xs ih =>
    intro b hab hba
    cases b with
    | nil => simp [charListLtB] at hba
    | cons y ys =>
      by_cases hxy : x < y
      · simp [charListLtB, hxy] at hab
      · by_cases hyx : y < x
        · simp [charListLtB, hyx] at hba
        · have hxy2 : x = y := le_antisymm (le_of_not_lt hyx) (le_of_not_lt hxy)
          subst hxy2
          simp only [charListLtB, hxy, if_false, lt_irrefl, if_false] at hab hba
          rw [ih ys hab hba]

theorem strLtB_lawful : IsLinOrderB strLtB := by
  constructor
  · intro a b hab
    exact charListLtB_asymm a.data b.data hab
  · intro a b c hab hbc
    exact charListLtB_trans a.data b.data c.data hab hbc
  · intro a b hab hba
    exact congrArg String.mk (charListLtB_eq_of a.data b.data hab hba)

theorem sortedDedupInt_sorted_lt (l : List Int) :
    (sortedDedupInt l).Sorted (· < ·) := by
  refine (sortedDedupBy_sorted intLtB_lawful l).imp ?_
  intro a b hab
  simpa [intLtB] using hab

theorem sortedDedupInt_nodup (l : List Int) : (sortedDedupInt l).Nodup :=
  sortedDedupBy_nodup intLtB_lawful l

theorem sortedDedupInt_idem (l : List Int) :
    sortedDedupInt (sortedDedupInt l) = sortedDedupInt l :=
  sortedDedupBy_idem intLtB_lawful l

theorem sortedDedupStr_sorted (l : List String) :
    (sortedDedupStr l).Sorted (fun a b => strLtB a b = true) :=
  sortedDedupBy_sorted strLtB_lawful l

theorem sortedDedupStr_nodup (l : List String) : (sortedDedupStr l).Nodup :=
  sortedDedupBy_nodup strLtB_lawful l

/-- A row of a pandas DataFrame read with `dtype=str`: cell by normalized
column name; `none` models a NaN cell. -/
def Row : Type := String → Option String

/-- A DataFrame after `pd.read_csv(..., dtype=str)` and `_normalize_cols`. -/
structure Table where
  cols : List String
  rows : List Row

/-- Python `str(x)` on a possibly-NaN cell (`astype(str)` turns NaN into
the string `"nan"`). -/
def cellStr (c : Option String) : String := c.getD "nan"

/-- `pd.to_numeric(errors="coerce")` + `astype("Int64")` on one cell of a
`dtype=str` frame; `none` is the NaN produced for unparsable values. -/
def pdInt? (c : Option String) : Option Int := c.bind pyIntParse?

/-- Dict populated by iterating items and writing the key/value pairs `g`
accepts; front insertion plus first-hit lookup is last-write-wins. -/
def rowsFold {ρ β : Type} (items : List ρ) (g : ρ → Option (String × β)) :
    List (String × β) :=
  items.foldl (fun m r => match g r with | some kv => kv :: m | none => m) []

/-- Dict with one write per key. -/
def buildDict {β : Type} (keys : List String) (f : String → β) :
    List (String × β) :=
  keys.foldl (fun m k => (k, f k) :: m) []

/-- First-occurrence enumeration of distinct elements (pandas group keys,
up to order, which no claim depends on). -/
def distinctAux : List String → List String → List String
  | [], _ => []
  | k :: ks, seen =>
    if k ∈ seen then distinctAux ks seen else k :: distinctAux ks (k :: seen)

/-- Distinct group keys of a key list. -/
def distinctKeys (l : List String) : List String := distinctAux l []

/-! ### ZIP index builder, direct source
(`_load_zip_to_providers_from_unique`, `src/app.py` lines 69–118) -/

/-- Candidate county-name columns scanned by the direct builder (line 99). -/
def directCountyCandidates : List String :=
  ["county_name", "geography_desc", "county", "county_names"]

/-- Long-format rows that survive the `provider_id` coercion and the
NaN-key drop of `groupby("zip")` (lines 83–85): raw zip key plus id. -/
def directLongRows (t : Table) : List (String × Int) :=
  t.rows.filterMap (fun r =>
    match r "zip", pdInt? (r "provider_id") with
    | some z, some n => some (z, n)
    | _, _ => none)

/-- Long-format branch (lines 82–87): group by raw zip, store the
distinct sorted ids under the `zfill(5)` key. -/
def buildDirectLong (t : Table) : List (String × List Int) :=
  rowsFold (distinctKeys ((directLongRows t).map Prod.fst)) (fun k =>
    some (pyZfill 5 k,
      sortedDedupInt (((directLongRows t).filter (fun p => p.1 = k)).map Prod.snd)))

/-- Wide-format cell parsing (lines 91–95): strip brackets and spaces,
split on commas, keep tokens whose strip is all digits. -/
def parseIdsCell (raw : String) : List Int :=
  (splitChar ',' (raw.data.filter (fun ch => ch ≠ '[' && ch ≠ ']' && ch ≠ ' '))).filterMap
    (fun tok =>
      let t := trimChars tok
      if t ≠ [] ∧ t.all Char.isDigit then some (Int.ofNat (digitsToNat t)) else none)

/-- Wide-format branch (lines 88–96): one write per row under the
`zfill(5)` key (`str` of a NaN zip is `"nan"`). -/
def buildDirectWide (t : Table) : List (String × List Int) :=
  rowsFold t.rows (fun r =>
    some (pyZfill 5 (cellStr (r "zip")),
      sortedDedupInt (parseIdsCell (cellStr (r "provider_ids")))))

/-- Rows the county loop iterates: in the long branch the frame was
reassigned by `dropna(subset=["provider_id"])` (line 84), otherwise the
full frame. -/
def directCountyRows (t : Table) : List Row :=
  if "provider_id" ∈ t.cols then
    t.rows.filter (fun r => (pdInt? (r "provider_id")).isSome)
  else t.rows

/-- Split one county cell into names (lines 105–110). -/
def splitCountyCell (v : String) : List String :=
  if v.data.contains ';' then splitTrimFilter ';' v
  else if v.data.contains ',' && !(endsWithS (pyStrip v) " County") then
    splitTrimFilter ',' v
  else [pyStrip v]

/-- The names one county cell contributes (lines 103–110): none for a
NaN (non-string) or blank cell. -/
def countyNamesFromCell (cell : Option String) : List String :=
  match cell with
  | none => []
  | some v => if pyStrip v ≠ "" then splitCountyCell v else []

/-- County map of the direct builder (lines 98–112): first candidate
column present wins; one write per row holding a non-blank string cell. -/
def buildDirectCounties (t : Table) : List (String × List String) :=
  match directCountyCandidates.find? (fun c => c ∈ t.cols) with
  | none => []
  | some cand =>
    rowsFold (directCountyRows t) (fun r =>
      match r cand with
      | some v =>
        if pyStrip v ≠ "" then
          some (pyZfill 5 (cellStr (r "zip")), splitCountyCell v)
        else none
      | none => none)

/-- `_load_zip_to_providers_from_unique` after the file read (lines
69–118): requires a `zip` column, long format takes priority over wide. -/
def buildDirect (t : Table) :
    List (String × List Int) × List (String × List String) :=
  if "zip" ∈ t.cols then
    ((if "provider_id" ∈ t.cols then buildDirectLong t
      else if "provider_ids" ∈ t.cols then buildDirectWide t
      else []),
     buildDirectCounties t)
  else ([], [])

/-! ### ZIP index builder, county join
(`_load_zip_to_providers_from_county_merge`, `src/app.py` lines 121–185) -/

/-- County-identifier candidates scanned in the providers table
(line 130). -/
def fipsCandidates : List String :=
  ["county_fips", "geography_id", "county", "fips", "county_code"]

/-- Provider-identifier candidates (line 139). -/
def pidCandidates : List String :=
  ["provider_id", "providerid", "pid", "provider"]

/-- Optional county-name candidates (line 148). -/
def mergeNameCandidates : List String :=
  ["county_name", "geography_desc", "county", "name"]

/-- Provider rows after normalization (lines 153–155): `zfill(5)` on the
county id (as `str`, so NaN becomes `"00nan"`), id coerced to an integer
with non-numeric rows dropped, optional name cell carried along. -/
def provRowsOf (prov : Table) (fc pc : String) (nameCol : Option String) :
    List (String × Int × Option String) :=
  prov.rows.filterMap (fun r =>
    match pdInt? (r pc) with
    | some n =>
      some (pyZfill 5 (cellStr (r fc)), n, nameCol.bind (fun nc => r nc))
    | none => none)

/-- Inner join `crosswalk.county = providers.<fips col>` (lines 157–165),
each joined row tagged by the crosswalk's `zfill(5)` zip. -/
def mergedOf (prov cross : Table) (fc pc : String) (nameCol : Option String) :
    List (String × Int × Option String) :=
  (cross.rows.map (fun r =>
      (pyZfill 5 (cellStr (r "county")), pyZfill 5 (cellStr (r "zip"))))).flatMap
    (fun cz =>
      ((provRowsOf prov fc pc nameCol).filter (fun p => p.1 = cz.1)).map
        (fun p => (cz.2, p.2.1, p.2.2)))

/-- `_load_zip_to_providers_from_county_merge` after the file reads
(lines 121–185): resolve columns, join, aggregate per zip (distinct
sorted ids; distinct sorted stripped names when a name column exists).
Missing identifier columns raise and are caught, yielding empty maps. -/
def buildCountyMerge (prov cross : Table) :
    List (String × List Int) × List (String × List String) :=
  match fipsCandidates.find? (fun c => c ∈ prov.cols),
        pidCandidates.find? (fun c => c ∈ prov.cols) with
  | some fc, some pc =>
    if "county" ∈ cross.cols ∧ "zip" ∈ cross.cols then
      let nameCol := mergeNameCandidates.find? (fun c => c ∈ prov.cols)
      let merged := mergedOf prov cross fc pc nameCol
      let zips := distinctKeys (merged.map (fun m => m.1))
      (buildDict zips (fun z =>
         sortedDedupInt ((merged.filter (fun m => m.1 = z)).map (fun m => m.2.1))),
       match nameCol with
       | none => []
       | some _ =>
         buildDict zips (fun z =>
           sortedDedupStr (((merged.filter (fun m => m.1 = z)).filterMap
             (fun m => m.2.2)).map pyStrip)))
    else ([], [])
  | _, _ => ([], [])

/-! ### Loader orchestration (`load_zip_to_providers`, lines 188–203) -/

/-- The direct builder including the missing-file guard (line 70). -/
def buildDirectOpt : Option Table →
    List (String × List Int) × List (String × List String)
  | none => ([], [])
  | some t => buildDirect t

/-- The county-join builder including the missing-file guard (line 122). -/
def buildCountyMergeOpt : Option Table → Option Table →
    List (String × List Int) × List (String × List String)
  | some p, some c => buildCountyMerge p c
  | _, _ => ([], [])

/-- `load_zip_to_providers` (lines 188–203): adopt the direct result when
its provider map is non-empty, else the county-join result when its
provider map is non-empty, else leave both maps empty. -/
def load_zip_to_providers (direct prov cross : Option Table) :
    List (String × List Int) × List (String × List String) :=
  let r1 := buildDirectOpt direct
  if r1.1 ≠ [] then (r1.1, r1.2)
  else
    let r2 := buildCountyMergeOpt prov cross
    if r2.1 ≠ [] then (r2.1, r2.2) else ([], [])

/-! ### Lookup pipeline (lines 206–251) -/

/-- A CPython float as this pipeline observes it.  The only operations
the lookup path applies to a float are `isinstance(p, float)` (always
true) and `int(p)`, which raises on NaN and the infinities and
truncates any finite float toward zero — so a finite float is
represented by the integer `int(p)` returns. -/
inductive PyFloat where
  | nan
  | inf
  | ninf
  | finite (trunc : Int)
deriving DecidableEq

/-- A dynamically-typed value a provider list may hold at lookup time;
the loaders only ever store ints, while the defensive filter at line 212
also admits floats and digit strings. -/
inductive PyVal where
  | int (n : Int)
  | float (x : PyFloat)
  | str (s : String)
deriving DecidableEq

/-- The three module-level mappings (lines 16–18). -/
structure ApiState where
  id_to_name : List (Int × String)
  zip_to_providers : List (String × List PyVal)
  zip_to_counties : List (String × List String)

/-- `isinstance(p, (int, float)) or (isinstance(p, str) and p.isdigit())`
(line 212). -/
def keepProv : PyVal → Bool
  | .int _ => true
  | .float _ => true
  | .str s => pyIsDigitStr s

/-- Python `int(p)` with its exception surfaced: raises on NaN and
infinite floats and on strings that are not integer literals — both can
slip past the line-212 filter (a NaN float is a float; `"²"` satisfies
`isdigit`). -/
def pyIntE : PyVal → Except String Int
  | .int n => .ok n
  | .float x =>
    match x with
    | PyFloat.finite t => .ok t
    | PyFloat.nan => .error "cannot convert float NaN to integer"
    | PyFloat.inf => .error "cannot convert float infinity to integer"
    | PyFloat.ninf => .error "cannot convert float infinity to integer"
  | .str s =>
    match pyIntParse? s with
    | some n => .ok n
    | none => .error ("invalid literal for int with base 10: " ++ s)

/-- Total `int(p)` (agrees with `pyIntE` whenever that returns `ok`). -/
def pyIntPlain : PyVal → Int
  | .int n => n
  | .float x =>
    match x with
    | PyFloat.finite t => t
    | _ => 0
  | .str s => (pyIntParse? s).getD 0

/-- The values on which `int(p)` provably cannot raise: ints, finite
floats, and non-empty ASCII-digit strings.  NaN or infinite floats and
digit strings that are not integer literals fail this test — they are
exactly the values that pass the line-212 filter yet make `int(p)`
raise. -/
def safeVal : PyVal → Bool
  | .int _ => true
  | .float (PyFloat.finite _) => true
  | .float _ => false
  | .str s => s.data ≠ [] && s.data.all Char.isDigit

/-- `providers_for_zip` (lines 206–214): zfill the key, read both dicts
with an empty-list default, filter to integer-like values, coerce,
deduplicate and sort. -/
def providers_for_zip (st : ApiState) (zip_code : String) :
    List Int × List String :=
  let z := pyZfill 5 zip_code
  let provs := (dfind? st.zip_to_providers z).getD []
  let counties := (dfind? st.zip_to_counties z).getD []
  (sortedDedupInt ((provs.filter keepProv).map pyIntPlain), counties)

/-- `providers_for_zip` in the exception monad: `int(p)` is the only
partial step of the pipeline. -/
def providers_for_zipE (st : ApiState) (zip_code : String) :
    Except String (List Int × List String) := do
  let z := pyZfill 5 zip_code
  let provs := (dfind? st.zip_to_providers z).getD []
  let counties := (dfind? st.zip_to_counties z).getD []
  let ints ← (provs.filter keepProv).mapM pyIntE
  return (sortedDedupInt ints, counties)

/-- One `{provider_id, provider_name}` object of the response. -/
structure ProviderEntry where
  provider_id : Int
  provider_name : String
deriving DecidableEq

/-- `attach_names` (lines 216–220): iterate `sorted(set(ids))`, resolving
each id in the directory with the `"Unknown provider"` placeholder. -/
def attach_names (dir : List (Int × String)) (provider_ids : List Int) :
    List ProviderEntry :=
  (sortedDedupInt provider_ids).map (fun pid =>
    ⟨pid, (dfind? dir pid).getD "Unknown provider"⟩)

/-- The JSON body of `/api/providers/by-zip` (lines 243–249). -/
structure ByZipResponse where
  zip : String
  counties : List String
  providers : List ProviderEntry
  providers_count : Nat
  source : String
deriving DecidableEq

/-- Default of the `source` query parameter (line 239). -/
def apiSourceDefault : String := "unique"

/-- `api_providers_by_zip` (lines 236–249), the successful branch. -/
def api_providers_by_zip (st : ApiState) (zip source : String) :
    ByZipResponse :=
  let pc := providers_for_zip st zip
  { zip := pyZfill 5 zip
    counties := pc.2
    providers := attach_names st.id_to_name pc.1
    providers_count := pc.1.length
    source := source }

/-- `api_providers_by_zip` with the 500 branch visible: an `error` value
is what the endpoint turns into an HTTP 500 (lines 250–251). -/
def api_providers_by_zipE (st : ApiState) (zip source : String) :
    Except String ByZipResponse := do
  let pc ← providers_for_zipE st zip
  return { zip := pyZfill 5 zip
           counties := pc.2
           providers := attach_names st.id_to_name pc.1
           providers_count := pc.1.length
           source := source }

/-- The module state right after startup (lines 222–224): loader results
injected into the dynamically-typed provider lists. -/
def mkState (dir : List (Int × String))
    (maps : List (String × List Int) × List (String × List String)) :
    ApiState :=
  ⟨dir, maps.1.map (fun kv => (kv.1, kv.2.map PyVal.int)), maps.2⟩

/-! ### Dictionary characterizations -/

section DictFacts

variable {ρ β : Type}

theorem dfind_cons {κ : Type} [DecidableEq κ] (k : κ) (v : β)
    (m : List (κ × β)) (z : κ) :
    dfind? ((k, v) :: m) z = if k = z then some v else dfind? m z := rfl

/-- A successful lookup's key/value pair is an entry of the list. -/
theorem dfind?_some_mem {κ : Type} [DecidableEq κ] :
    ∀ (m : List (κ × β)) (z : κ) (l : β), dfind? m z = some l → (z, l) ∈ m := by
  intro m
  induction m with
  | nil => intro z l h; exact Option.noConfusion h
  | cons kv m ih =>
    intro z l h
    obtain ⟨k, v⟩ := kv
    rw [dfind_cons] at h
    by_cases hk : k = z
    · subst hk
      rw [if_pos rfl] at h
      injection h with hv
      subst hv
      exact List.mem_cons_self _ _
    · rw [if_neg hk] at h
      exact List.mem_cons_of_mem _ (ih z l h)

/-- Lookup commutes with mapping a function over the stored values. -/
theorem dfind_map_values {γ : Type} (f : β → γ) :
    ∀ (m : List (String × β)) (z : String),
      dfind? (m.map (fun kv => (kv.1, f kv.2))) z = (dfind? m z).map f := by
  intro m
  induction m with
  | nil => intro z; rfl
  | cons kv m ih =>
    intro z
    obtain ⟨k, v⟩ := kv
    rw [List.map_cons]
    dsimp only
    rw [dfind_cons, dfind_cons]
    by_cases hk : k = z
    · rw [if_pos hk, if_pos hk]
      rfl
    · rw [if_neg hk, if_neg hk, ih]

theorem dfind_foldl_inv (P : β → Prop) (g : ρ → Option (String × β)) :
    ∀ (items : List ρ) (init : List (String × β)),
      (∀ r kv, g r = some kv → P kv.2) →
      (∀ z l, dfind? init z = some l → P l) →
      ∀ z l,
        dfind? (items.foldl
          (fun m r => match g r with | some kv => kv :: m | none => m) init) z =
            some l → P l := by
  intro items
  induction items with
  | nil => intro init _ hinit z l h; exact hinit z l h
  | cons r rs ih =>
    intro init hg hinit z l h
    rw [List.foldl_cons] at h
    refine ih _ hg ?_ z l h
    intro w m hm
    cases hgr : g r with
    | none => rw [hgr] at hm; exact hinit w m hm
    | some kv =>
      obtain ⟨k, v⟩ := kv
      rw [hgr, dfind_cons] at hm
      by_cases hkw : k = w
      · rw [if_pos hkw] at hm
        injection hm with hv
        exact hv ▸ hg r (k, v) hgr
      · rw [if_neg hkw] at hm
        exact hinit w m hm

/-- Every value stored by `rowsFold` satisfies any property all written
values satisfy. -/
theorem dfind_rowsFold_inv (P : β → Prop) (items : List ρ)
    (g : ρ → Option (String × β)) (hg : ∀ r kv, g r = some kv → P kv.2)
    (z : String) (l : β) (h : dfind? (rowsFold items g) z = some l) : P l := by
  refine dfind_foldl_inv P g items [] hg ?_ z l h
  intro w m hm
  cases hm

theorem dfind_buildDict_aux (f : String → β) :
    ∀ (keys : List String) (init : List (String × β)) (z : String),
      dfind? (keys.foldl (fun m k => (k, f k) :: m) init) z =
        if z ∈ keys then some (f z) else dfind? init z := by
  intro keys
  induction keys with
  | nil => intro init z; simp
  | cons k ks ih =>
    intro init z
    rw [List.foldl_cons, ih]
    by_cases hzs : z ∈ ks
    · rw [if_pos hzs, if_pos (List.mem_cons_of_mem k hzs)]
    · rw [if_neg hzs, dfind_cons]
      by_cases hkz : k = z
      · subst hkz
        rw [if_pos rfl, if_pos (List.mem_cons_self k ks)]
      · rw [if_neg hkz, if_neg ?_]
        intro hz
        rcases List.mem_cons.mp hz with hz | hz
        · exact hkz hz.symm
        · exact hzs hz

/-- Lookup in a `buildDict` dictionary: present exactly on the key list,
with the value function's value. -/
theorem dfind_buildDict (keys : List String) (f : String → β) (z : String) :
    dfind? (buildDict keys f) z = if z ∈ keys then some (f z) else none := by
  rw [buildDict, dfind_buildDict_aux]
  by_cases hz : z ∈ keys
  · rw [if_pos hz, if_pos hz]
  · rw [if_neg hz, if_neg hz]; rfl

theorem buildDict_length (f : String → β) :
    ∀ (keys : List String) (init : List (String × β)),
      (keys.foldl (fun m k => (k, f k) :: m) init).length =
        init.length + keys.length := by
  intro keys
  induction keys with
  | nil => intro init; simp
  | cons k ks ih =>
    intro init
    rw [List.foldl_cons, ih]
    simp only [List.length_cons]
    omega

theorem buildDict_eq_nil_iff (keys : List String) (f : String → β) :
    buildDict keys f = [] ↔ keys = [] := by
  constructor
  · intro h
    have hl : (buildDict keys f).length = [].length + keys.length :=
      buildDict_length f keys []
    rw [h] at hl
    simp only [List.length_nil] at hl
    exact List.length_eq_zero.mp (by omega)
  · intro h; subst h; rfl

end DictFacts

/-! ### Builder invariants -/

/-- Every provider list stored by the long-format direct branch is a
`sorted(set(...))` image. -/
theorem buildDirectLong_inv (t : Table) (w : String) (l : List Int)
    (h : dfind? (buildDirectLong t) w = some l) :
    ∃ src, l = sortedDedupInt src := by
  unfold buildDirectLong at h
  refine dfind_rowsFold_inv (fun l => ∃ src, l = sortedDedupInt src)
    _ _ ?_ w l h
  intro k kv hkv
  injection hkv with he
  subst he
  exact ⟨_, rfl⟩

/-- Every provider list stored by the wide-format direct branch is a
`sorted(set(...))` image. -/
theorem buildDirectWide_inv (t : Table) (w : String) (l : List Int)
    (h : dfind? (buildDirectWide t) w = some l) :
    ∃ src, l = sortedDedupInt src := by
  unfold buildDirectWide at h
  refine dfind_rowsFold_inv (fun l => ∃ src, l = sortedDedupInt src)
    _ _ ?_ w l h
  intro r kv hkv
  injection hkv with he
  subst he
  exact ⟨_, rfl⟩

/-- Every provider list stored by the direct builder is a
`sorted(set(...))` image. -/
theorem buildDirect_providers_inv (t : Table) (w : String) (l : List Int)
    (h : dfind? (buildDirect t).1 w = some l) :
    ∃ src, l = sortedDedupInt src := by
  unfold buildDirect at h
  by_cases hz : "zip" ∈ t.cols
  · rw [if_pos hz] at h
    by_cases hp : "provider_id" ∈ t.cols
    · rw [if_pos hp] at h
      exact buildDirectLong_inv t w l h
    · rw [if_neg hp] at h
      by_cases hq : "provider_ids" ∈ t.cols
      · rw [if_pos hq] at h
        exact buildDirectWide_inv t w l h
      · rw [if_neg hq] at h
        exact Option.noConfusion h
  · rw [if_neg hz] at h
    exact Option.noConfusion h

/-- Every county-name list stored by the direct builder is the split of
one row's non-blank county cell. -/
theorem buildDirect_counties_inv (t : Table) (w : String) (l : List String)
    (h : dfind? (buildDirect t).2 w = some l) :
    ∃ v, pyStrip v ≠ "" ∧ l = splitCountyCell v := by
  have h2 : dfind? (buildDirectCounties t) w = some l := by
    unfold buildDirect at h
    by_cases hz : "zip" ∈ t.cols
    · rw [if_pos hz] at h; exact h
    · rw [if_neg hz] at h; exact Option.noConfusion h
  unfold buildDirectCounties at h2
  cases hc : directCountyCandidates.find? (fun c => c ∈ t.cols) with
  | none => rw [hc] at h2; exact Option.noConfusion h2
  | some cand =>
    rw [hc] at h2
    refine dfind_rowsFold_inv (fun l => ∃ v, pyStrip v ≠ "" ∧ l = splitCountyCell v)
      _ _ ?_ w l h2
    intro r kv hkv
    cases hcell : r cand with
    | none => rw [hcell] at hkv; exact Option.noConfusion hkv
    | some v =>
      rw [hcell] at hkv
      dsimp only at hkv
      by_cases hb : pyStrip v ≠ ""
      · rw [if_pos hb] at hkv
        injection hkv with he
        subst he
        exact ⟨v, hb, rfl⟩
      · rw [if_neg hb] at hkv
        exact Option.noConfusion hkv

/-- Trimmed county names of the joined rows for one zip. -/
def mergedNamesAt (prov cross : Table) (fc pc : String) (nc : Option String)
    (z : String) : List String :=
  (((mergedOf prov cross fc pc nc).filter (fun m => m.1 = z)).filterMap
    (fun m => m.2.2)).map pyStrip

/-- Provider ids of the joined rows for one zip. -/
def mergedIdsAt (prov cross : Table) (fc pc : String) (nc : Option String)
    (z : String) : List Int :=
  ((mergedOf prov cross fc pc nc).filter (fun m => m.1 = z)).map
    (fun m => m.2.1)

/-- The zip group keys of the county join. -/
def mergedZips (prov cross : Table) (fc pc : String) : List String :=
  distinctKeys ((mergedOf prov cross fc pc
    (mergeNameCandidates.find? (fun c => c ∈ prov.cols))).map (fun m => m.1))

/-- `buildCountyMerge` when all required columns resolve. -/
theorem buildCountyMerge_resolved (prov cross : Table) (fc pc : String)
    (hfc : fipsCandidates.find? (fun c => c ∈ prov.cols) = some fc)
    (hpc : pidCandidates.find? (fun c => c ∈ prov.cols) = some pc)
    (hcz : "county" ∈ cross.cols ∧ "zip" ∈ cross.cols) :
    buildCountyMerge prov cross =
      (buildDict (mergedZips prov cross fc pc)
         (fun z => sortedDedupInt (mergedIdsAt prov cross fc pc
           (mergeNameCandidates.find? (fun c => c ∈ prov.cols)) z)),
       match mergeNameCandidates.find? (fun c => c ∈ prov.cols) with
       | none => []
       | some _ =>
         buildDict (mergedZips prov cross fc pc)
           (fun z => sortedDedupStr (mergedNamesAt prov cross fc pc
             (mergeNameCandidates.find? (fun c => c ∈ prov.cols)) z))) := by
  unfold buildCountyMerge mergedZips mergedIdsAt mergedNamesAt
  rw [hfc, hpc]
  dsimp only
  rw [if_pos hcz]

/-- `buildCountyMerge` when no county-identifier column resolves. -/
theorem buildCountyMerge_no_fips (prov cross : Table)
    (hfc : fipsCandidates.find? (fun c => c ∈ prov.cols) = none) :
    buildCountyMerge prov cross = ([], []) := by
  unfold buildCountyMerge
  rw [hfc]

/-- `buildCountyMerge` when no provider-identifier column resolves. -/
theorem buildCountyMerge_no_pid (prov cross : Table)
    (hpc : pidCandidates.find? (fun c => c ∈ prov.cols) = none) :
    buildCountyMerge prov cross = ([], []) := by
  unfold buildCountyMerge
  rw [hpc]
  cases fipsCandidates.find? (fun c => c ∈ prov.cols) <;> rfl

/-- `buildCountyMerge` when the crosswalk lacks a required column. -/
theorem buildCountyMerge_no_cross (prov cross : Table)
    (hcz : ¬("county" ∈ cross.cols ∧ "zip" ∈ cross.cols)) :
    buildCountyMerge prov cross = ([], []) := by
  unfold buildCountyMerge
  cases fipsCandidates.find? (fun c => c ∈ prov.cols) with
  | none => cases pidCandidates.find? (fun c => c ∈ prov.cols) <;> rfl
  | some fc =>
    cases pidCandidates.find? (fun c => c ∈ prov.cols) with
    | none => rfl
    | some pc =>
      dsimp only
      rw [if_neg hcz]

/-- Every provider list stored by the county-join builder aggregates, as
`sorted(set(...))`, the ids of all joined rows for that zip. -/
theorem buildCountyMerge_providers_char (prov cross : Table) (w : String)
    (l : List Int) (h : dfind? (buildCountyMerge prov cross).1 w = some l) :
    ∃ fc pc,
      fipsCandidates.find? (fun c => c ∈ prov.cols) = some fc ∧
      pidCandidates.find? (fun c => c ∈ prov.cols) = some pc ∧
      l = sortedDedupInt (mergedIdsAt prov cross fc pc
            (mergeNameCandidates.find? (fun c => c ∈ prov.cols)) w) := by
  cases hfc : fipsCandidates.find? (fun c => c ∈ prov.cols) with
  | none =>
    rw [buildCountyMerge_no_fips prov cross hfc] at h
    exact Option.noConfusion h
  | some fc =>
    cases hpc : pidCandidates.find? (fun c => c ∈ prov.cols) with
    | none =>
      rw [buildCountyMerge_no_pid prov cross hpc] at h
      exact Option.noConfusion h
    | some pc =>
      by_cases hcz : "county" ∈ cross.cols ∧ "zip" ∈ cross.cols
      · rw [buildCountyMerge_resolved prov cross fc pc hfc hpc hcz] at h
        dsimp only at h
        rw [dfind_buildDict] at h
        by_cases hw : w ∈ mergedZips prov cross fc pc
        · rw [if_pos hw] at h
          injection h with he
          exact ⟨fc, pc, rfl, rfl, he.symm⟩
        · rw [if_neg hw] at h
          exact Option.noConfusion h
      · rw [buildCountyMerge_no_cross prov cross hcz] at h
        exact Option.noConfusion h

/-- Every county-name list stored by the county-join builder aggregates,
as `sorted(set(...))`, the stripped names of all joined rows for that
zip; it exists only when a name column was resolved. -/
theorem buildCountyMerge_counties_char (prov cross : Table) (w : String)
    (l : List String) (h : dfind? (buildCountyMerge prov cross).2 w = some l) :
    ∃ fc pc ncol,
      fipsCandidates.find? (fun c => c ∈ prov.cols) = some fc ∧
      pidCandidates.find? (fun c => c ∈ prov.cols) = some pc ∧
      mergeNameCandidates.find? (fun c => c ∈ prov.cols) = some ncol ∧
      l = sortedDedupStr (mergedNamesAt prov cross fc pc (some ncol) w) := by
  cases hfc : fipsCandidates.find? (fun c => c ∈ prov.cols) with
  | none =>
    rw [buildCountyMerge_no_fips prov cross hfc] at h
    exact Option.noConfusion h
  | some fc =>
    cases hpc : pidCandidates.find? (fun c => c ∈ prov.cols) with
    | none =>
      rw [buildCountyMerge_no_pid prov cross hpc] at h
      exact Option.noConfusion h
    | some pc =>
      by_cases hcz : "county" ∈ cross.cols ∧ "zip" ∈ cross.cols
      · rw [buildCountyMerge_resolved prov cross fc pc hfc hpc hcz] at h
        cases hnc : mergeNameCandidates.find? (fun c => c ∈ prov.cols) with
        | none =>
          rw [hnc] at h
          exact Option.noConfusion h
        | some ncol =>
          rw [hnc] at h
          dsimp only at h
          rw [dfind_buildDict] at h
          by_cases hw : w ∈ mergedZips prov cross fc pc
          · rw [if_pos hw] at h
            injection h with he
            refine ⟨fc, pc, ncol, rfl, rfl, rfl, ?_⟩
            rw [← he]
          · rw [if_neg hw] at h
            exact Option.noConfusion h
      · rw [buildCountyMerge_no_cross prov cross hcz] at h
        exact Option.noConfusion h

/-- When the county-join provider index is empty the county index is
empty as well. -/
theorem buildCountyMerge_counties_nil (prov cross : Table)
    (h : (buildCountyMerge prov cross).1 = []) :
    (buildCountyMerge prov cross).2 = [] := by
  cases hfc : fipsCandidates.find? (fun c => c ∈ prov.cols) with
  | none => rw [buildCountyMerge_no_fips prov cross hfc]
  | some fc =>
    cases hpc : pidCandidates.find? (fun c => c ∈ prov.cols) with
    | none => rw [buildCountyMerge_no_pid prov cross hpc]
    | some pc =>
      by_cases hcz : "county" ∈ cross.cols ∧ "zip" ∈ cross.cols
      · rw [buildCountyMerge_resolved prov cross fc pc hfc hpc hcz] at h ⊢
        have hkeys : mergedZips prov cross fc pc = [] :=
          (buildDict_eq_nil_iff _ _).mp h
        cases hnc : mergeNameCandidates.find? (fun c => c ∈ prov.cols) with
        | none => rfl
        | some ncol =>
          dsimp only
          rw [hkeys]
          rfl
      · rw [buildCountyMerge_no_cross prov cross hcz]

/-- The county-emptiness propagation, lifted over the missing-file
guards. -/
theorem buildCountyMergeOpt_counties_nil (p c : Option Table)
    (h : (buildCountyMergeOpt p c).1 = []) : (buildCountyMergeOpt p c).2 = [] := by
  cases p with
  | none => rfl
  | some pt =>
    cases c with
    | none => rfl
    | some ct => exact buildCountyMerge_counties_nil pt ct h

/-! ### Digit-string parsing facts -/

theorem dropWhile_pyspace_eq_self (l : List Char)
    (h : ∀ c ∈ l, isPySpace c = false) : l.dropWhile isPySpace = l := by
  cases l with
  | nil => rfl
  | cons c cs => simp [List.dropWhile_cons, h c (List.mem_cons_self c cs)]

theorem trimChars_eq_self (l : List Char)
    (h : ∀ c ∈ l, isPySpace c = false) : trimChars l = l := by
  unfold trimChars
  rw [dropWhile_pyspace_eq_self l h,
    dropWhile_pyspace_eq_self l.reverse
      (fun c hc => h c (List.mem_reverse.mp hc)),
    List.reverse_reverse]

theorem isDigit_not_pyspace (c : Char) (h : c.isDigit = true) :
    isPySpace c = false := by
  cases hs : isPySpace c with
  | false => rfl
  | true =>
    exfalso
    simp only [isPySpace, Bool.or_eq_true, decide_eq_true_eq] at hs
    rcases hs with ((((h1 | h1) | h1) | h1) | h1) | h1 <;> subst h1 <;>
      exact absurd h (by decide)

theorem parseDigits?_all (l : List Char) (h1 : l ≠ [])
    (h2 : ∀ c ∈ l, c.isDigit = true) :
    parseDigits? l = some (digitsToNat l) := by
  unfold parseDigits?
  rw [if_pos]
  exact ⟨h1, List.all_eq_true.mpr (fun c hc => h2 c hc)⟩

/-- Python `int(s)` succeeds on every non-empty string of ASCII
digits. -/
theorem pyIntParse?_digits (s : String) (h1 : s.data ≠ [])
    (hall : ∀ c ∈ s.data, Char.isDigit c = true) :
    pyIntParse? s = some (Int.ofNat (digitsToNat s.data)) := by
  have htrim : trimChars s.data = s.data :=
    trimChars_eq_self s.data (fun c hc => isDigit_not_pyspace c (hall c hc))
  unfold pyIntParse?
  rw [htrim]
  cases hd : s.data with
  | nil => exact absurd hd h1
  | cons c cs =>
    have hcd : c.isDigit = true :=
      hall c (by rw [hd]; exact List.mem_cons_self c cs)
    have hnp : ¬ c = '+' := by rintro rfl; exact absurd hcd (by decide)
    have hnm : ¬ c = '-' := by rintro rfl; exact absurd hcd (by decide)
    dsimp only
    rw [if_neg hnp, if_neg hnm,
      parseDigits?_all (c :: cs) (List.cons_ne_nil c cs)
        (fun x hx => hall x (by rw [hd]; exact hx)), ← hd]
    rfl

/-- `int(p)` cannot raise on a safe value. -/
theorem pyIntE_ok_of_safe (v : PyVal) (h : safeVal v = true) :
    pyIntE v = Except.ok (pyIntPlain v) := by
  cases v with
  | int n => rfl
  | float x =>
    cases x with
    | finite t => rfl
    | nan => exact Bool.noConfusion h
    | inf => exact Bool.noConfusion h
    | ninf => exact Bool.noConfusion h
  | str s =>
    simp only [safeVal, Bool.and_eq_true, decide_eq_true_eq,
      List.all_eq_true] at h
    obtain ⟨h1, h2⟩ := h
    have hp := pyIntParse?_digits s h1 (fun c hc => h2 c hc)
    unfold pyIntE pyIntPlain
    dsimp only
    rw [hp]
    rfl

theorem mapM_pyIntE_ok_of_safe (l : List PyVal)
    (hl : ∀ v ∈ l, safeVal v = true) :
    l.mapM pyIntE = Except.ok (l.map pyIntPlain) := by
  induction l with
  | nil => rfl
  | cons v vs ih =>
    rw [List.mapM_cons, pyIntE_ok_of_safe v (hl v (List.mem_cons_self v vs)),
      ih (fun w hw => hl w (List.mem_cons_of_mem v hw))]
    rfl

/-! ### Zero-padding facts -/

/-- Zero padding as the spec words it: the input preceded by exactly
enough `'0'` characters to reach width `w`. -/
def zeroPad (w : Nat) (s : String) : String :=
  ⟨List.replicate (w - s.data.length) '0' ++ s.data⟩

/-- On non-empty all-digit strings, Python `zfill` is plain left
zero-padding. -/
theorem pyZfill_digits (w : Nat) (s : String) (h0 : s.data ≠ [])
    (hd : ∀ c ∈ s.data, c.isDigit = true) : pyZfill w s = zeroPad w s := by
  unfold pyZfill pyZfillList zeroPad
  by_cases hw : w ≤ s.data.length
  · rw [if_pos hw]
    have hz : w - s.data.length = 0 := by omega
    rw [hz]
    rfl
  · rw [if_neg hw]
    cases hsd : s.data with
    | nil => exact absurd hsd h0
    | cons c cs =>
      have hcd : c.isDigit = true :=
        hd c (by rw [hsd]; exact List.mem_cons_self c cs)
      have hns : ¬ (c = '+' ∨ c = '-') := by
        rintro (rfl | rfl) <;> exact absurd hcd (by decide)
      dsimp only
      rw [if_neg hns]

/-! ### Concrete fixture tables -/

/-- A direct-source table: two rows for zip `"1"`, ids 5 and 9, county
cell `"B;A"`. -/
def tblDirectA : Table :=
  ⟨["zip", "provider_id", "county_name"],
   [fun c => if c = "zip" then some "1" else
             if c = "provider_id" then some "5" else
             if c = "county_name" then some "B;A" else none,
    fun c => if c = "zip" then some "1" else
             if c = "provider_id" then some "9" else
             if c = "county_name" then some "B;A" else none]⟩

/-- A providers-by-county table with `county_fips` resolvable. -/
def tblProvA : Table :=
  ⟨["county_fips", "provider_id", "county_name"],
   [fun c => if c = "county_fips" then some "6037" else
             if c = "provider_id" then some "5" else
             if c = "county_name" then some " Los Angeles " else none,
    fun c => if c = "county_fips" then some "6037" else
             if c = "provider_id" then some "3" else
             if c = "county_name" then some "Kern" else none]⟩

/-- A county/zip crosswalk table with one row. -/
def tblCrossA : Table :=
  ⟨["county", "zip"],
   [fun c => if c = "county" then some "06037" else
             if c = "zip" then some "90001" else none]⟩

/-- A direct-source table holding one long-format row for zip `"90001"`. -/
def tblDirectB : Table :=
  ⟨["zip", "provider_id"],
   [fun c => if c = "zip" then some "90001" else
             if c = "provider_id" then some "7" else none]⟩

/-- A direct-source table whose single county cell is `"A;A"`. -/
def tblDirectDup : Table :=
  ⟨["zip", "county_name"],
   [fun c => if c = "zip" then some "1" else
             if c = "county_name" then some "A;A" else none]⟩

/-- A providers-by-county table whose only county-identifier candidate is
the `county` column. -/
def tblProvCountyOnly : Table :=
  ⟨["county", "provider_id"],
   [fun c => if c = "county" then some "06037" else
             if c = "provider_id" then some "5" else none]⟩

/-- A providers table with a provider id but no county-identifier
candidate at all. -/
def tblProvNoFips : Table :=
  ⟨["provider_id", "region"],
   [fun c => if c = "provider_id" then some "5" else
             if c = "region" then some "west" else none]⟩

/-- Lookup state with one zip key `"00123"` and one known provider. -/
def stC8 : ApiState :=
  mkState [(5, "Acme")] ([("00123", [5])], [("00123", ["Kern"])])

/-- Lookup state with nothing loaded. -/
def stEmpty : ApiState := ⟨[], [], []⟩

/-- A state whose provider list holds the Unicode digit string `"²"`:
`"²".isdigit()` is true in Python, yet `int("²")` raises. -/
def stSuperscript : ApiState := ⟨[], [("00001", [PyVal.str "²"])], []⟩

/-- A state whose provider list holds a float NaN: it passes the
`isinstance(p, (int, float))` filter, yet `int(p)` raises. -/
def stNanFloat : ApiState := ⟨[], [("00001", [PyVal.float PyFloat.nan])], []⟩

/-- The error text of an `Except`, when it carries one. -/
def exceptErrMsg? {α : Type} : Except String α → Option String
  | .error e => some e
  | .ok _ => none

/-- Reading back the ids of the response objects `attach_names` builds
recovers the id list it was given. -/
theorem map_fst_mkEntry (g : Int → String) (l : List Int) :
    (l.map (fun pid => (⟨pid, g pid⟩ : ProviderEntry))).map
      (fun e => e.provider_id) = l := by
  induction l with
  | nil => rfl
  | cons x xs ih => simp [ih]

/-! ### Claims -/

/-- Claim C1: for every ZIP key, the provider-ID list stored in the
ZIP→provider index by either builder is strictly ascending by provider id
and duplicate-free, and so is the providers list of the by-zip response
(ordered by its `provider_id` field). -/
theorem c1_provider_lists_sorted_nodup (t prov cross : Table) (z : String)
    (st : ApiState) (zq s : String) :
    (((dfind? (buildDirect t).1 z).getD []).Sorted (· < ·) ∧
      ((dfind? (buildDirect t).1 z).getD []).Nodup) ∧
    (((dfind? (buildCountyMerge prov cross).1 z).getD []).Sorted (· < ·) ∧
      ((dfind? (buildCountyMerge prov cross).1 z).getD []).Nodup) ∧
    (((api_providers_by_zip st zq s).providers.map
        (fun e => e.provider_id)).Sorted (· < ·) ∧
      ((api_providers_by_zip st zq s).providers.map
        (fun e => e.provider_id)).Nodup) := by
  refine ⟨?_, ?_, ?_⟩
  · cases ho : dfind? (buildDirect t).1 z with
    | none => simp
    | some l =>
      obtain ⟨src, rfl⟩ := buildDirect_providers_inv t z l ho
      exact ⟨sortedDedupInt_sorted_lt src, sortedDedupInt_nodup src⟩
  · cases ho : dfind? (buildCountyMerge prov cross).1 z with
    | none => simp
    | some l =>
      obtain ⟨fc, pc, _, _, rfl⟩ :=
        buildCountyMerge_providers_char prov cross z l ho
      exact ⟨sortedDedupInt_sorted_lt _, sortedDedupInt_nodup _⟩
  · have hmap : (api_providers_by_zip st zq s).providers.map
        (fun e => e.provider_id) = sortedDedupInt (providers_for_zip st zq).1 := by
      unfold api_providers_by_zip attach_names
      dsimp only
      exact map_fst_mkEntry _ _
    rw [hmap]
    exact ⟨sortedDedupInt_sorted_lt _, sortedDedupInt_nodup _⟩

/-- Claim C2 counterexample: the `source` field does not identify the
load path.  A state loaded through the Direct path and a state loaded
through the County-Join path (Direct empty, County-Join non-empty)
produce the identical label `"unique"` (the request default), so the
field cannot distinguish them. -/
theorem c2_source_label_counterexample :
    (buildDirectOpt (some tblDirectB)).1 ≠ [] ∧
    (buildDirectOpt none).1 = [] ∧
    (buildCountyMergeOpt (some tblProvA) (some tblCrossA)).1 ≠ [] ∧
    (api_providers_by_zip
        (mkState [] (load_zip_to_providers (some tblDirectB) none none))
        "90001" apiSourceDefault).source = "unique" ∧
    (api_providers_by_zip
        (mkState [] (load_zip_to_providers none (some tblProvA) (some tblCrossA)))
        "90001" apiSourceDefault).source = "unique" := by
  refine ⟨by decide, by decide, by decide, by decide, by decide⟩

/-- Claim C2 amended: the `source` field of the by-zip response is the
value of the request's `source` query parameter (default `"unique"`); it
is not derived from, and does not identify, the load path that produced
the served data. -/
theorem c2_source_echoes_parameter (st : ApiState) (zip source : String) :
    (api_providers_by_zip st zip source).source = source := rfl

/-- The county-cell split rule exactly as the specification words it
(spec §4.3), kept separate from the code-derived `countyNamesFromCell`
so the two can be compared. -/
def specCountySplitRule (cell : Option String) : List String :=
  match cell with
  | none => []
  | some v =>
    if pyStrip v = "" then []
    else if v.data.contains ';' then splitTrimFilter ';' v
    else if v.data.contains ',' && !(endsWithS (pyStrip v) " County") then
      splitTrimFilter ',' v
    else [pyStrip v]

/-- Claim C5: the direct builder splits each county cell exactly as
specified — semicolons first; else commas unless the (stripped) value
ends in `" County"`; else the whole stripped cell; blank or non-string
cells contribute no names. -/
theorem c5_county_cell_split_rule (cell : Option String) :
    countyNamesFromCell cell = specCountySplitRule cell := by
  cases cell with
  | none => rfl
  | some v =>
    unfold countyNamesFromCell specCountySplitRule splitCountyCell
    dsimp only
    by_cases hb : pyStrip v = ""
    · rw [if_neg (fun h => h hb), if_pos hb]
    · rw [if_pos hb, if_neg hb]

/-- Claim C6: the orchestrator adopts the Direct result exactly when its
provider index is non-empty; otherwise the final state equals the
County-Join result (whose county map is empty whenever its provider map
is), leaving both maps empty when both builders come back empty. -/
theorem c6_orchestrator_priority (direct prov cross : Option Table) :
    (load_zip_to_providers direct prov cross =
      if (buildDirectOpt direct).1 = [] then buildCountyMergeOpt prov cross
      else buildDirectOpt direct) ∧
    ((buildDirectOpt direct).1 = [] →
      (buildCountyMergeOpt prov cross).1 = [] →
      load_zip_to_providers direct prov cross = ([], [])) := by
  have hmain : load_zip_to_providers direct prov cross =
      if (buildDirectOpt direct).1 = [] then buildCountyMergeOpt prov cross
      else buildDirectOpt direct := by
    rcases hd : buildDirectOpt direct with ⟨m1, c1⟩
    rcases hc : buildCountyMergeOpt prov cross with ⟨m2, c2⟩
    have hcn : m2 = [] → c2 = [] := by
      intro h2
      have hres := buildCountyMergeOpt_counties_nil prov cross (by rw [hc, h2])
      rw [hc] at hres
      exact hres
    unfold load_zip_to_providers
    rw [hd, hc]
    dsimp only
    by_cases h1 : m1 = []
    · rw [if_neg (fun hne => hne h1), if_pos h1]
      by_cases h2 : m2 ≠ []
      · rw [if_pos h2]
      · have hm2 : m2 = [] := not_ne_iff.mp h2
        rw [if_neg h2, hm2, hcn hm2]
    · rw [if_pos h1, if_neg h1]
  refine ⟨hmain, ?_⟩
  intro h1 h2
  rw [hmain, if_pos h1]
  have hc2 := buildCountyMergeOpt_counties_nil prov cross h2
  rw [Prod.ext_iff]
  exact ⟨h2, hc2⟩

/-- Claim C6 witness: both builders empty leaves both maps empty. -/
theorem c6_orchestrator_priority_witness :
    (buildDirectOpt none).1 = [] ∧
    (buildCountyMergeOpt none none).1 = [] ∧
    load_zip_to_providers none none none = ([], []) :=
  ⟨rfl, rfl, (c6_orchestrator_priority none none none).2 rfl rfl⟩

/-- Claim C9: in every by-zip response, `providers_count` equals the
length of the `providers` list. -/
theorem c9_count_matches_providers (st : ApiState) (zip source : String) :
    (api_providers_by_zip st zip source).providers_count =
      (api_providers_by_zip st zip source).providers.length := by
  unfold api_providers_by_zip attach_names
  dsimp only
  rw [List.length_map]
  unfold providers_for_zip
  dsimp only
  rw [sortedDedupInt_idem]

/-- Claim C10 counterexample: the lookup pipeline is not total over
every state of the mappings.  The Unicode digit string `"²"` and a
float NaN both pass the line-212 filter, yet `int(p)` raises on each,
so the exception-aware endpoint returns an error — the 500 branch is
reachable at these states. -/
theorem c10_totality_counterexample :
    keepProv (PyVal.str "²") = true ∧
    keepProv (PyVal.float PyFloat.nan) = true ∧
    exceptErrMsg? (api_providers_by_zipE stSuperscript "00001" "unique") =
      some "invalid literal for int with base 10: ²" ∧
    exceptErrMsg? (api_providers_by_zipE stNanFloat "00001" "unique") =
      some "cannot convert float NaN to integer" := by
  decide

/-- Claim C10 amended: the lookup pipeline raises no exception — and the
500 branch is unreachable — for every request string and every state
whose stored provider lists hold only safe values (ints, finite floats,
or non-empty ASCII-digit strings); in particular for every state built
from loader results, whose provider lists are all ints. -/
theorem c10_lookup_total_amended (st : ApiState) (zip source : String)
    (dir : List (Int × String))
    (maps : List (String × List Int) × List (String × List String)) :
    ((∀ kv ∈ st.zip_to_providers, ∀ v ∈ kv.2, safeVal v = true) →
      api_providers_by_zipE st zip source =
        Except.ok (api_providers_by_zip st zip source)) ∧
    api_providers_by_zipE (mkState dir maps) zip source =
      Except.ok (api_providers_by_zip (mkState dir maps) zip source) := by
  have hgen : ∀ (st2 : ApiState),
      (∀ kv ∈ st2.zip_to_providers, ∀ v ∈ kv.2, safeVal v = true) →
      api_providers_by_zipE st2 zip source =
        Except.ok (api_providers_by_zip st2 zip source) := by
    intro st2 hsafe
    have hsafeF : ∀ v ∈ ((dfind? st2.zip_to_providers
        (pyZfill 5 zip)).getD []).filter keepProv, safeVal v = true := by
      intro v hv
      have hv1 := (List.mem_filter.mp hv).1
      cases ho : dfind? st2.zip_to_providers (pyZfill 5 zip) with
      | none =>
        rw [ho] at hv1
        simp at hv1
      | some l =>
        rw [ho] at hv1
        exact hsafe (pyZfill 5 zip, l)
          (dfind?_some_mem st2.zip_to_providers (pyZfill 5 zip) l ho) v hv1
    unfold api_providers_by_zipE api_providers_by_zip providers_for_zipE
      providers_for_zip
    dsimp only
    rw [mapM_pyIntE_ok_of_safe _ hsafeF]
    rfl
  refine ⟨hgen st, ?_⟩
  refine hgen (mkState dir maps) ?_
  intro kv hkv v hvv
  unfold mkState at hkv
  dsimp only at hkv
  obtain ⟨p, hp, hpe⟩ := List.mem_map.mp hkv
  rw [← hpe] at hvv
  dsimp only at hvv
  obtain ⟨n, hn, rfl⟩ := List.mem_map.mp hvv
  rfl

/-- Claim C10 witness: the safety guard and the ok result at a concrete
populated state. -/
theorem c10_lookup_total_amended_witness :
    (∀ kv ∈ stC8.zip_to_providers, ∀ v ∈ kv.2, safeVal v = true) ∧
    api_providers_by_zipE stC8 "123" "unique" =
      Except.ok (api_providers_by_zip stC8 "123" "unique") :=
  ⟨by decide,
   (c10_lookup_total_amended stC8 "123" "unique" [] ([], [])).1 (by decide)⟩

/-- Claim C3 counterexample: the direct builder stores the county list
`["A", "A"]` under zip key `"00001"` — not deduplicated (and not an
aggregate of anything but one cell), refuting the claim for the direct
load path. -/
theorem c3_direct_counties_counterexample :
    dfind? (buildDirect tblDirectDup).2 "00001" = some ["A", "A"] ∧
    ¬ (["A", "A"] : List String).Nodup := by
  refine ⟨by decide, by simp⟩

/-- Claim C3 amended: in the county-join builder every stored county
list is strictly ascending in code-point order, duplicate-free, and is
the sorted deduplication of the stripped names of all joined rows for
that zip; in the direct builder a stored list is the split of a single
row's non-blank county cell, with no cross-row aggregation,
deduplication, or sorting guaranteed. -/
theorem c3_county_lists_amended (prov cross : Table) (z : String)
    (t : Table) (w : String) :
    (((dfind? (buildCountyMerge prov cross).2 z).getD []).Sorted
        (fun a b => strLtB a b = true) ∧
      ((dfind? (buildCountyMerge prov cross).2 z).getD []).Nodup) ∧
    (∀ l, dfind? (buildCountyMerge prov cross).2 z = some l →
      ∃ fc pc ncol,
        fipsCandidates.find? (fun c => c ∈ prov.cols) = some fc ∧
        pidCandidates.find? (fun c => c ∈ prov.cols) = some pc ∧
        mergeNameCandidates.find? (fun c => c ∈ prov.cols) = some ncol ∧
        l = sortedDedupStr (mergedNamesAt prov cross fc pc (some ncol) z)) ∧
    (∀ l, dfind? (buildDirect t).2 w = some l →
      ∃ v, pyStrip v ≠ "" ∧ l = splitCountyCell v) := by
  refine ⟨?_, ?_, ?_⟩
  · cases ho : dfind? (buildCountyMerge prov cross).2 z with
    | none => simp
    | some l =>
      obtain ⟨fc, pc, ncol, _, _, _, rfl⟩ :=
        buildCountyMerge_counties_char prov cross z l ho
      exact ⟨sortedDedupStr_sorted _, sortedDedupStr_nodup _⟩
  · intro l hl
    exact buildCountyMerge_counties_char prov cross z l hl
  · intro l hl
    exact buildDirect_counties_inv t w l hl

/-- Claim C3 witness: the amended statement evaluated at the concrete
fixtures. -/
theorem c3_county_lists_amended_witness :
    dfind? (buildCountyMerge tblProvA tblCrossA).2 "90001" =
        some ["Kern", "Los Angeles"] ∧
    dfind? (buildDirect tblDirectA).2 "00001" = some ["B", "A"] ∧
    (∃ fc pc ncol,
      fipsCandidates.find? (fun c => c ∈ tblProvA.cols) = some fc ∧
      pidCandidates.find? (fun c => c ∈ tblProvA.cols) = some pc ∧
      mergeNameCandidates.find? (fun c => c ∈ tblProvA.cols) = some ncol ∧
      ["Kern", "Los Angeles"] =
        sortedDedupStr (mergedNamesAt tblProvA tblCrossA fc pc (some ncol)
          "90001")) ∧
    (∃ v, pyStrip v ≠ "" ∧ ["B", "A"] = splitCountyCell v) :=
  ⟨by decide, by decide,
   (c3_county_lists_amended tblProvA tblCrossA "90001" tblDirectA "00001").2.1
     ["Kern", "Los Angeles"] (by decide),
   (c3_county_lists_amended tblProvA tblCrossA "90001" tblDirectA "00001").2.2
     ["B", "A"] (by decide)⟩

/-- The county-identifier candidate list exactly as claim C4 states it
(no `county` entry). -/
def specFipsCandidates : List String :=
  ["county_fips", "geography_id", "fips", "county_code"]

/-- Claim C4 counterexample: a providers table whose only county
identifier is a `county` column matches none of the claim's candidates,
so the claim predicts the path fails with empty mappings — but the code
also scans `county`, resolves it, and produces a non-empty result. -/
theorem c4_candidates_counterexample :
    specFipsCandidates.find? (fun c => c ∈ tblProvCountyOnly.cols) = none ∧
    fipsCandidates.find? (fun c => c ∈ tblProvCountyOnly.cols) =
      some "county" ∧
    buildCountyMerge tblProvCountyOnly tblCrossA ≠ ([], []) := by
  refine ⟨by decide, by decide, by decide⟩

/-- Claim C4 amended: the county-identifier column is resolved by
scanning `county_fips`, `geography_id`, `county`, `fips`, `county_code`
in that order, first present wins; if none is present the county-join
path fails and returns empty mappings. -/
theorem c4_fips_resolution_amended (prov cross : Table) :
    (fipsCandidates.find? (fun c => c ∈ prov.cols) = none →
      buildCountyMerge prov cross = ([], [])) ∧
    fipsCandidates.find? (fun c => c ∈ prov.cols) =
      (if "county_fips" ∈ prov.cols then some "county_fips"
       else if "geography_id" ∈ prov.cols then some "geography_id"
       else if "county" ∈ prov.cols then some "county"
       else if "fips" ∈ prov.cols then some "fips"
       else if "county_code" ∈ prov.cols then some "county_code"
       else none) := by
  refine ⟨buildCountyMerge_no_fips prov cross, ?_⟩
  by_cases h1 : "county_fips" ∈ prov.cols <;>
    by_cases h2 : "geography_id" ∈ prov.cols <;>
    by_cases h3 : "county" ∈ prov.cols <;>
    by_cases h4 : "fips" ∈ prov.cols <;>
    by_cases h5 : "county_code" ∈ prov.cols <;>
    simp [fipsCandidates, List.find?, h1, h2, h3, h4, h5]

/-- Claim C4 witness: the no-candidate failure at a concrete table. -/
theorem c4_fips_resolution_amended_witness :
    fipsCandidates.find? (fun c => c ∈ tblProvNoFips.cols) = none ∧
    buildCountyMerge tblProvNoFips tblCrossA = ([], []) :=
  ⟨by decide,
   (c4_fips_resolution_amended tblProvNoFips tblCrossA).1 (by decide)⟩

/-- Claim C7: lookups never fail on unknown keys — a zip absent from
both indices yields the empty response with count 0, and a provider id
absent from the directory resolves to the placeholder
`"Unknown provider"` instead of an omission or a failure. -/
theorem c7_unknown_keys_safe (st : ApiState) (z s : String)
    (dir : List (Int × String)) (pid : Int) :
    (dfind? st.zip_to_providers (pyZfill 5 z) = none →
      dfind? st.zip_to_counties (pyZfill 5 z) = none →
      api_providers_by_zip st z s = ⟨pyZfill 5 z, [], [], 0, s⟩) ∧
    (dfind? dir pid = none →
      attach_names dir [pid] = [⟨pid, "Unknown provider"⟩]) := by
  constructor
  · intro h1 h2
    unfold api_providers_by_zip providers_for_zip
    dsimp only
    rw [h1, h2]
    rfl
  · intro h
    unfold attach_names
    rw [show sortedDedupInt [pid] = [pid] from rfl]
    simp [h]

/-- Claim C7 witness: an unknown zip and an unknown provider id at
concrete inputs. -/
theorem c7_unknown_keys_safe_witness :
    dfind? stEmpty.zip_to_providers (pyZfill 5 "99999") = none ∧
    dfind? stEmpty.zip_to_counties (pyZfill 5 "99999") = none ∧
    dfind? ([] : List (Int × String)) 7 = none ∧
    api_providers_by_zip stEmpty "99999" "unique" =
      ⟨pyZfill 5 "99999", [], [], 0, "unique"⟩ ∧
    attach_names [] [7] = [⟨7, "Unknown provider"⟩] :=
  ⟨rfl, rfl, rfl,
   (c7_unknown_keys_safe stEmpty "99999" "unique" [] 7).1 rfl rfl,
   (c7_unknown_keys_safe stEmpty "99999" "unique" [] 7).2 rfl⟩

/-- Claim C8: for an all-digit zip input of length 3 to 5, the
response's `zip` field is exactly the input zero-padded to 5 characters,
and both index lookups use that same zero-padded key. -/
theorem c8_zip_zero_padded (st : ApiState) (z s : String)
    (h3 : 3 ≤ z.data.length) ( _h5 : z.data.length ≤ 5)
    (hd : ∀ c ∈ z.data, c.isDigit = true) :
    (api_providers_by_zip st z s).zip = zeroPad 5 z ∧
    (api_providers_by_zip st z s).counties =
      (dfind? st.zip_to_counties (zeroPad 5 z)).getD [] ∧
    (api_providers_by_zip st z s).providers =
      attach_names st.id_to_name
        (sortedDedupInt
          ((((dfind? st.zip_to_providers (zeroPad 5 z)).getD []).filter
            keepProv).map pyIntPlain)) := by
  have h0 : z.data ≠ [] := by
    intro he
    rw [he] at h3
    simp at h3
  have hz : pyZfill 5 z = zeroPad 5 z := pyZfill_digits 5 z h0 hd
  unfold api_providers_by_zip providers_for_zip
  dsimp only
  rw [hz]
  exact ⟨rfl, rfl, rfl⟩

/-- Claim C8 witness: the padded key and lookups at the concrete input
`"123"`. -/
theorem c8_zip_zero_padded_witness :
    (3 ≤ ("123" : String).data.length ∧ ("123" : String).data.length ≤ 5 ∧
      ∀ c ∈ ("123" : String).data, c.isDigit = true) ∧
    ((api_providers_by_zip stC8 "123" "unique").zip = zeroPad 5 "123" ∧
     (api_providers_by_zip stC8 "123" "unique").counties =
       (dfind? stC8.zip_to_counties (zeroPad 5 "123")).getD [] ∧
     (api_providers_by_zip stC8 "123" "unique").providers =
       attach_names stC8.id_to_name
         (sortedDedupInt
           ((((dfind? stC8.zip_to_providers (zeroPad 5 "123")).getD []).filter
             keepProv).map pyIntPlain))) :=
  ⟨⟨by decide, by decide, by decide⟩,
   c8_zip_zero_padded stC8 "123" "unique" (by decide) (by decide) (by decide)⟩

end CellCoverage

section Scratch

open CellCoverage

example : sortedDedupInt [3, 1, 2, 1] = [1, 2, 3] := by decide
example : sortedDedupStr ["B", "A", "B"] = ["A", "B"] := by decide
example : pyZfill 5 "123" = "00123" := by decide
example : pyZfill 5 "-12" = "-0012" := by decide
example : pyZfill 5 "901234" = "901234" := by decide
example : pyStrip "  a b  " = "a b" := by decide
example : splitTrimFilter ';' "Los Angeles ; Kern ;" = ["Los Angeles", "Kern"] := by decide
example : pyIntParse? " 42 " = some 42 := by decide
example : pyIntParse? "-7" = some (-7) := by decide
example : pyIntParse? "+05" = some 5 := by decide
example : pyIntParse? "x7" = none := by decide
example : pyIntParse? "" = none := by decide
example : cleanCol " Provider ID é" = "provider_id" := by decide
example : endsWithS "Los Angeles County" " County" = true := by decide

example : (buildDirect tblDirectA).1 = [("00001", [5, 9])] := by decide
example : (buildDirect tblDirectA).2 = [("00001", ["B", "A"]), ("00001", ["B", "A"])] := by decide
example : dfind? (buildDirect tblDirectA).2 "00001" = some ["B", "A"] := by decide
example : (buildCountyMerge tblProvA tblCrossA).1 = [("90001", [3, 5])] := by decide
example : (buildCountyMerge tblProvA tblCrossA).2 = [("90001", ["Kern", "Los Angeles"])] := by decide

example :
    api_providers_by_zip (mkState [(5, "Acme")] (buildCountyMerge tblProvA tblCrossA)) "90001" "unique" =
      ⟨"90001", ["Kern", "Los Angeles"],
       [⟨3, "Unknown provider"⟩, ⟨5, "Acme"⟩], 2, "unique"⟩ := by decide

end Scratch
